import Mathlib

/-!
# OpenOCD `src/helper/options.c`: command-line interpretation

A shallow embedding of `parse_cmdline_args` and `add_default_dirs`.

* A C string is a Lean `String`; every `Char` of it stands for one `char`.
* `int` values are `Int`; a character constant such as the C literal for the
  letter d is `chr` of that letter.
* The calls the function makes to its collaborators (`command_run_line`,
  `add_config_command`, `add_script_search_dir`, `LOG_WARNING`, `LOG_OUTPUT`)
  are recorded, in program order, in a trace of `Event`s.
* `exit` and `return` are the `Outcome` of the call.
* The scanner `getopt_long` belongs to the C library; it is modelled after
  getopt(3) as a step on the scanner position, and the `while (1)` loop calls
  it with fuel. `parse_cmdline_args_eq` shows that the fuel never runs out.
* A use of a null pointer is a `Fault`; `parse_cmdline_args_outcome` shows
  where one can occur.
-/

namespace OpenOCD

/-! ## The option table (options.c:34-46) -/

/-- The `has_arg` field of `struct option` (`getopt.h`): `no_argument` is 0,
`required_argument` is 1, `optional_argument` is 2. -/
inductive HasArg where
  | no_argument
  | required_argument
  | optional_argument
  deriving DecidableEq, Repr

/-- The two file-scope `static int` variables of options.c:34, as targets of
the `flag` pointer of a long option. -/
inductive FlagVar where
  | help_flag
  | version_flag
  deriving DecidableEq, Repr

/-- The C `struct option` of `getopt.h`: `flag` is `none` for a null pointer. -/
structure LongOpt where
  name : String
  has_arg : HasArg
  flag : Option FlagVar
  val : Int
  deriving DecidableEq, Repr

/-- The `int` value of a character constant. -/
def chr (c : Char) : Int := (c.toNat : Int)

/-- The table `long_options` (options.c:36-46), without its all-zero
terminator. -/
def long_options : List LongOpt :=
  [ ⟨"help", .no_argument, some .help_flag, 1⟩,
    ⟨"version", .no_argument, some .version_flag, 1⟩,
    ⟨"debug", .optional_argument, none, chr 'd'⟩,
    ⟨"file", .required_argument, none, chr 'f'⟩,
    ⟨"search", .required_argument, none, chr 's'⟩,
    ⟨"log_output", .required_argument, none, chr 'l'⟩,
    ⟨"command", .required_argument, none, chr 'c'⟩,
    ⟨"pipe", .no_argument, none, chr 'p'⟩ ]

/-- The short-option string handed to `getopt_long` (options.c:139). -/
def optstring : String := "hvd::l:f:s:c:p"

/-! ## The flag scanner `getopt_long` -/

/-- What one call of `getopt_long` hands back: its return value `c`, the value
of `optarg` after the call (`none` for a null pointer), and the store
`*flag = val` it performed, if any. -/
structure GetoptResult where
  c : Int
  optarg : Option String
  store : Option (FlagVar × Int)
  deriving DecidableEq, Repr

/-- The scanner's position between calls: `nextchar` is what is left of the
cluster of short options being read (empty when there is none), `rest` the
elements of `argv` not yet looked at. -/
structure GetoptData where
  nextchar : List Char
  rest : List String
  deriving DecidableEq, Repr

/-- The C `strchr` on the remaining characters of a string: the suffix that
starts at the first occurrence of `c`. -/
def strchr : List Char → Char → Option (List Char)
  | [], _ => none
  | x :: xs, c => if x = c then some (x :: xs) else strchr xs c

/-- The macro `NONOPTION_P` of the scanner: an element that does not start
with a dash, or is the lone dash. -/
def nonoption_p (arg : String) : Bool :=
  match arg.data with
  | '-' :: _ :: _ => false
  | _ => true

/-- The argument requirement that the short-option string gives the
character found at `temp`: two colons optional, one colon required. -/
def short_has_arg : List Char → HasArg
  | _ :: ':' :: ':' :: _ => .optional_argument
  | _ :: ':' :: _ => .required_argument
  | _ => .no_argument

/-- The character code of the question mark, the scanner's error result. -/
def c_error : Int := chr '?'

/-- Modelled from the spec: the flag-syntax scanner is the C library's
`getopt_long`, which is not part of src/; this is the part of it that reads
the next character `c` of a cluster of short options, `cs` being the rest of
the cluster and `rest` the elements of `argv` after it. Following getopt(3):
an unknown character, a colon or a semicolon gives the error result; an
option with an optional argument takes it only from the same word; an option
with a required argument takes the rest of the word or else the next
element, and gives the error result when there is none. -/
def short_option (opts : String) (c : Char) (cs : List Char) (rest : List String) :
    GetoptResult × GetoptData :=
  match strchr opts.data c with
  | none => (⟨c_error, none, none⟩, ⟨cs, rest⟩)
  | some temp =>
    if c = ':' ∨ c = ';' then (⟨c_error, none, none⟩, ⟨cs, rest⟩)
    else
      match short_has_arg temp with
      | .no_argument => (⟨chr c, none, none⟩, ⟨cs, rest⟩)
      | .optional_argument =>
        if cs ≠ [] then (⟨chr c, some (String.mk cs), none⟩, ⟨[], rest⟩)
        else (⟨chr c, none, none⟩, ⟨[], rest⟩)
      | .required_argument =>
        if cs ≠ [] then (⟨chr c, some (String.mk cs), none⟩, ⟨[], rest⟩)
        else
          match rest with
          | [] => (⟨c_error, none, none⟩, ⟨[], []⟩)
          | a :: rest1 => (⟨chr c, some a, none⟩, ⟨[], rest1⟩)

/-- Whether, after `pfound` was the first table entry that `name` abbreviates,
a later entry `p` that it abbreviates too makes the abbreviation ambiguous
(`process_long_option` with `long_only` zero). -/
def ambiguous_with (pfound p : LongOpt) : Bool :=
  decide (pfound.has_arg ≠ p.has_arg ∨ pfound.flag ≠ p.flag ∨ pfound.val ≠ p.val)

/-- The table lookup of `process_long_option`: an exact match wins; else the
first entry that `name` is a leading part of, unless another such entry
differs from it (`none` then, as for no match at all). -/
def find_long (longopts : List LongOpt) (name : List Char) : Option LongOpt :=
  match longopts.find? (fun p => decide (p.name.data = name)) with
  | some p => some p
  | none =>
    match longopts.filter (fun p => name.isPrefixOf p.name.data) with
    | [] => none
    | pfound :: more => if more.any (ambiguous_with pfound) then none else some pfound

/-- The end of `process_long_option` for the table entry `pfound`: an entry
with a `flag` pointer stores `val` there and 0 is returned, else `val` is
returned. -/
def long_found (pfound : LongOpt) (optarg : Option String) (rest : List String) :
    GetoptResult × GetoptData :=
  match pfound.flag with
  | some f => (⟨0, optarg, some (f, pfound.val)⟩, ⟨[], rest⟩)
  | none => (⟨pfound.val, optarg, none⟩, ⟨[], rest⟩)

/-- Modelled from the spec: the long-option half of the C library's
`getopt_long` (not part of src/), for the word `--text`; `rest` are the
elements of `argv` after it. Following getopt(3): the name runs up to the
first equals sign; it may be abbreviated when unique; an argument after the
equals sign is an error for `no_argument`; a required argument without equals
sign is the next element, an error when there is none. -/
def process_long_option (longopts : List LongOpt) (text : List Char) (rest : List String) :
    GetoptResult × GetoptData :=
  match find_long longopts (text.takeWhile (fun x => x ≠ '=')) with
  | none => (⟨c_error, none, none⟩, ⟨[], rest⟩)
  | some pfound =>
    match text.dropWhile (fun x => x ≠ '=') with
    | _ :: value =>
      if pfound.has_arg = .no_argument then (⟨c_error, none, none⟩, ⟨[], rest⟩)
      else long_found pfound (some (String.mk value)) rest
    | [] =>
      if pfound.has_arg = .required_argument then
        match rest with
        | [] => (⟨c_error, none, none⟩, ⟨[], []⟩)
        | a :: rest1 => long_found pfound (some a) rest1
      else long_found pfound none rest

/-- The result of `getopt_long` at the end of the options. -/
def c_end : GetoptResult := ⟨-1, none, none⟩

/-- Modelled from the spec: the C library's `getopt_long` (not part of
src/) at the start of the element `rest.head`, following getopt(3): the end
of `argv` or the element `--` ends the scan with -1, a word starting `--` is
a long option, any other word starting with a dash and longer than the dash
opens a cluster of short options, and a word that is no option ends the
scan. -/
def getopt_element (opts : String) (longopts : List LongOpt) :
    List String → GetoptResult × GetoptData
  | [] => (c_end, ⟨[], []⟩)
  | arg :: rest1 =>
    if arg = "--" then (c_end, ⟨[], rest1⟩)
    else
      match arg.data with
      | '-' :: '-' :: text => process_long_option longopts text rest1
      | '-' :: c :: cs => short_option opts c cs rest1
      | _ => (c_end, ⟨[], arg :: rest1⟩)

/-- Modelled from the spec: one call of the C library's `getopt_long` (not
part of src/), following getopt(3). Inside a cluster the next short option
is read. Otherwise the elements that are no options are passed over first
(the default ordering; with `posixly_correct` they are not, and the first of
them ends the scan). -/
def getopt_long (posixly_correct : Bool) (opts : String) (longopts : List LongOpt)
    (d : GetoptData) : GetoptResult × GetoptData :=
  match d.nextchar with
  | c :: cs => short_option opts c cs d.rest
  | [] =>
    getopt_element opts longopts
      (if posixly_correct then d.rest else d.rest.dropWhile nonoption_p)

/-! ## The collaborators and the state -/

/-- Modelled from the spec: the collaborators are not under src/
(`command_run_line` is the command-execution context of helper/command.c,
`add_config_command` and `add_script_search_dir` belong to
helper/configuration.c, `LOG_WARNING` and `LOG_OUTPUT` are macros of
helper/log.h); a call to one of them is recorded with the text it is handed.
The diagnostics that the scanner itself writes are not recorded. -/
inductive Event where
  | command_run_line (line : String)
  | add_config_command (cmd : String)
  | add_script_search_dir (dir : String)
  | LOG_WARNING (msg : String)
  | LOG_OUTPUT (msg : String)
  deriving DecidableEq, Repr

/-- The state the function works on: the two static flags of options.c:34 and
the calls made so far, oldest first. -/
structure State where
  help_flag : Int
  version_flag : Int
  trace : List Event
  deriving DecidableEq, Repr

/-- What stops the model short of the C semantics. -/
inductive Fault where
  | out_of_fuel
  | null_pointer
  deriving DecidableEq, Repr

/-- The C `snprintf(buf, size, ...)` on the fully formatted text: at most
`size - 1` characters are stored before the terminator. -/
def snprintf (size : Nat) (formatted : String) : String :=
  String.mk (formatted.data.take (size - 1))

/-- Append one call to the trace. -/
def State.emit (st : State) (e : Event) : State :=
  { st with trace := st.trace ++ [e] }

/-- The deprecation warning of options.c:184-185. -/
def pipe_warning : String :=
  "deprecated option: -p/--pipe. Use \x27-c \x22gdb_port pipe; log_output openocd.log\x22\x27 instead."

/-- The command of options.c:183. -/
def pipe_command : String := "gdb_port pipe; log_output openocd.log"

/-- The body of the `switch (c)` of options.c:145-187 for one scanner result.
A null `optarg` handed to the `%s` of case f or to `add_script_search_dir`
is a fault. -/
def handle_option (st : State) (c : Int) (optarg : Option String) : Except Fault State :=
  if c = 0 then .ok st
  else if c = chr 'h' then .ok { st with help_flag := 1 }
  else if c = chr 'v' then .ok { st with version_flag := 1 }
  else if c = chr 'f' then
    match optarg with
    | some a => .ok (st.emit (.add_config_command (snprintf 128 ("script \x7b" ++ a ++ "\x7d"))))
    | none => .error .null_pointer
  else if c = chr 's' then
    match optarg with
    | some a => .ok (st.emit (.add_script_search_dir a))
    | none => .error .null_pointer
  else if c = chr 'd' then
    match optarg with
    | some a => .ok (st.emit (.command_run_line (snprintf 128 ("debug_level " ++ a))))
    | none => .ok (st.emit (.command_run_line (snprintf 128 "debug_level 3")))
  else if c = chr 'l' then
    match optarg with
    | some a => .ok (st.emit (.command_run_line (snprintf 128 ("log_output " ++ a))))
    | none => .ok st
  else if c = chr 'c' then
    match optarg with
    | some a => .ok (st.emit (.add_config_command a))
    | none => .ok st
  else if c = chr 'p' then
    .ok ((st.emit (.command_run_line pipe_command)).emit (.LOG_WARNING pipe_warning))
  else .ok st

/-- The store `*flag = val` that the scanner performed on one of the two
static flags. -/
def apply_store (st : State) : Option (FlagVar × Int) → State
  | none => st
  | some (.help_flag, v) => { st with help_flag := v }
  | some (.version_flag, v) => { st with version_flag := v }

/-- One turn of the `while (1)` loop after the scanner returned `r`, which is
not -1 (options.c:139-187). -/
def loop_body (st : State) (r : GetoptResult) : Except Fault State :=
  handle_option (apply_store st r.store) r.c r.optarg

/-- The `while (1)` loop of options.c:135-188, with `fuel` bounding the
number of scanner calls. -/
def parse_loop (posixly_correct : Bool) : Nat → GetoptData → State → Except Fault State
  | 0, _, _ => .error .out_of_fuel
  | fuel + 1, d, st =>
    match getopt_long posixly_correct optstring long_options d with
    | (r, d1) =>
      if r.c = -1 then .ok st
      else
        match loop_body st r with
        | .ok st1 => parse_loop posixly_correct fuel d1 st1
        | .error f => .error f

/-! ## The default search directories (options.c:55-128) -/

/-- What `add_default_dirs` takes from the build and from its surroundings:
whether `_WIN32` is defined, the buffer `strExePath` as `GetModuleFileName`
filled it, the value of `getenv("HOME")` (`none` for a null pointer), the
configured strings `PKGDATADIR` and `PACKAGE`, and whether the scanner runs
with `POSIXLY_CORRECT` set. -/
structure Env where
  win32 : Bool
  strExePath : String
  HOME : Option String
  PKGDATADIR : String
  PACKAGE : String
  POSIXLY_CORRECT : Bool
  deriving DecidableEq, Repr

/-- Modelled from the spec: `alloc_printf` is defined in helper/log.c, which
is not under src/; it returns the formatted text in fresh memory, or a null
pointer when memory runs out, which is not modelled: the text is always
returned. -/
def alloc_printf (formatted : String) : Option String := some formatted

/-- The backslash, the path separator that options.c:63-68 looks for. -/
def backslash : Char := Char.ofNat 92

/-- The effect of `*strrchr(s, c) = 0`: the text before the last occurrence
of `c`; `none` when `c` does not occur and the store goes through a null
pointer. -/
def cut_at_last (c : Char) : List Char → Option (List Char)
  | [] => none
  | x :: xs =>
    match cut_at_last c xs with
    | some ys => some (x :: ys)
    | none => if x = c then some [] else none

/-- The loop of options.c:66-69: every backslash becomes a slash. -/
def to_unix_separators (s : List Char) : List Char :=
  s.map (fun x => if x = backslash then '/' else x)

/-- The `if (path) { add_script_search_dir(path); free(path); }` of
add_default_dirs. -/
def add_if_allocated (st : State) (path : Option String) : State :=
  match path with
  | some p => st.emit (.add_script_search_dir p)
  | none => st

/-- The function `add_default_dirs` (options.c:55-128). -/
def add_default_dirs (env : Env) (st : State) : Except Fault State :=
  if env.win32 then
    match cut_at_last backslash env.strExePath.data with
    | none => .error .null_pointer
    | some cut =>
      let exe := String.mk (to_unix_separators cut)
      let st1 := add_if_allocated st (alloc_printf (exe ++ "/.."))
      let st2 := add_if_allocated st1 (alloc_printf (exe ++ ("/../share/" ++ env.PACKAGE ++ "/scripts")))
      let st3 := add_if_allocated st2 (alloc_printf (exe ++ "/../scripts"))
      .ok st3
  else
    let st1 :=
      match env.HOME with
      | some home => add_if_allocated st (alloc_printf (home ++ "/.openocd"))
      | none => st
    let st2 := st1.emit (.add_script_search_dir (env.PKGDATADIR ++ "/site"))
    .ok (st2.emit (.add_script_search_dir (env.PKGDATADIR ++ "/scripts")))

/-! ## `parse_cmdline_args` (options.c:130-214) -/

/-- How a call of `parse_cmdline_args` ends: it returns `retval`, it calls
`exit(status)`, or the model stops at a fault. -/
inductive Outcome where
  | returned (retval : Int)
  | exited (status : Int)
  | fault (f : Fault)
  deriving DecidableEq, Repr

/-- The state at the end of the call, and how it ended. -/
structure Result where
  state : State
  outcome : Outcome
  deriving DecidableEq, Repr

/-- Modelled from the spec: the macro `ERROR_OK` is defined in helper/log.h,
which is not under src/; it is the success status, zero. -/
def ERROR_OK : Int := 0

/-- The texts of the eight `LOG_OUTPUT` calls of options.c:191-198. -/
def usage_text : List String :=
  [ "Open On-Chip Debugger\nLicensed under GNU GPL v2\n",
    "--help       | -h\tdisplay this help\n",
    "--version    | -v\tdisplay OpenOCD version\n",
    "--file       | -f\tuse configuration file <name>\n",
    "--search     | -s\tdir to search for config files and scripts\n",
    "--debug      | -d\tset debug level <0-3>\n",
    "--log_output | -l\tredirect log output to file <name>\n",
    "--command    | -c\trun <command>\n" ]

/-- The state of a fresh process: both static flags are zero and no call
has been made. -/
def State.init : State := ⟨0, 0, []⟩

/-- The scanner before its first call: `optind` is 1, so `argv[0]` is not
looked at. -/
def getopt_start (argv : List String) : GetoptData := ⟨[], argv.drop 1⟩

/-- A bound on the number of scanner calls left: every call that does not end
the scan uses up a character of the cluster or an element of `argv`. -/
def GetoptData.size (d : GetoptData) : Nat :=
  d.nextchar.length + (d.rest.map (fun a => a.length + 1)).sum

/-- The part of `parse_cmdline_args` after the loop (options.c:190-213). -/
def post_scan (env : Env) (st : State) : Result :=
  if st.help_flag ≠ 0 then
    ⟨{ st with trace := st.trace ++ usage_text.map Event.LOG_OUTPUT }, .exited (-1)⟩
  else if st.version_flag ≠ 0 then ⟨st, .exited 0⟩
  else
    match add_default_dirs env st with
    | .ok st1 => ⟨st1, .returned ERROR_OK⟩
    | .error f => ⟨st, .fault f⟩

/-- The function `parse_cmdline_args` (options.c:130-214) on the argument
vector `argv`, in a fresh process. -/
def parse_cmdline_args (env : Env) (argv : List String) : Result :=
  match parse_loop env.POSIXLY_CORRECT ((getopt_start argv).size + 1) (getopt_start argv)
      State.init with
  | .ok st => post_scan env st
  | .error f => ⟨State.init, .fault f⟩

/-! ## Views of the trace -/

/-- Modelled from the spec: `add_script_search_dir` is defined in
helper/configuration.c, which is not under src/; the search-path list is an
ordered, append-only sequence of directory strings, so it holds the arguments
of the calls in call order. -/
def script_search_dirs (trace : List Event) : List String :=
  trace.filterMap (fun e => match e with
    | .add_script_search_dir dir => some dir
    | _ => none)

/-- Modelled from the spec: `add_config_command` is defined in
helper/configuration.c, which is not under src/; it appends the text to the
ordered list of config commands that the script loader runs later. -/
def config_commands (trace : List Event) : List String :=
  trace.filterMap (fun e => match e with
    | .add_config_command cmd => some cmd
    | _ => none)

/-- The lines handed to `command_run_line`, in call order. -/
def run_lines (trace : List Event) : List String :=
  trace.filterMap (fun e => match e with
    | .command_run_line line => some line
    | _ => none)

/-- The results of the successive scanner calls up to, and without, the first
-1, with `fuel` bounding the number of calls. -/
def getopt_seq (posixly_correct : Bool) : Nat → GetoptData → List GetoptResult
  | 0, _ => []
  | fuel + 1, d =>
    match getopt_long posixly_correct optstring long_options d with
    | (r, d1) => if r.c = -1 then [] else r :: getopt_seq posixly_correct fuel d1

/-- The flags of the command line as the scanner reports them, in order. -/
def scan (posixly_correct : Bool) (argv : List String) : List GetoptResult :=
  getopt_seq posixly_correct ((getopt_start argv).size + 1) (getopt_start argv)

/-- The calls that one turn of the loop adds to the trace for the scanner
result `r`. -/
def effects (r : GetoptResult) : List Event :=
  match loop_body State.init r with
  | .ok st => st.trace
  | .error _ => []

/-- The calls that the loop makes for a sequence of scanner results. -/
def run_trace (rs : List GetoptResult) : List Event :=
  rs.flatMap effects

/-- A help flag: the short option h, or a long option that stores 1 to
`help_flag`. -/
def is_help (r : GetoptResult) : Bool :=
  decide (r.c = chr 'h' ∨ r.store = some (.help_flag, 1))

/-- A version flag: the short option v, or a long option that stores 1 to
`version_flag`. -/
def is_version (r : GetoptResult) : Bool :=
  decide (r.c = chr 'v' ∨ r.store = some (.version_flag, 1))

/-- The arguments of the search flags among the scanner results, in order. -/
def search_args (rs : List GetoptResult) : List String :=
  rs.filterMap (fun r => if r.c = chr 's' then r.optarg else none)

/-! ## Notions used to state the properties -/

/-- What every scanner result satisfies with the table and option string of
options.c: either no store was made and the return value is not 0, or the
return value is 0 and 1 was stored to one of the two flags; and the options
f and s come with an argument. -/
def GetoptResult.wf (r : GetoptResult) : Prop :=
  ((r.store = none ∧ r.c ≠ 0) ∨
    (r.c = 0 ∧ (r.store = some (.help_flag, 1) ∨ r.store = some (.version_flag, 1)))) ∧
  ((r.c = chr 'f' ∨ r.c = chr 's') → r.optarg ≠ none)

/-- The state after the loop has handled the scanner results `rs` from the
state `st`. -/
def State.after (st : State) (rs : List GetoptResult) : State :=
  ⟨if rs.any is_help then 1 else st.help_flag,
   if rs.any is_version then 1 else st.version_flag,
   st.trace ++ run_trace rs⟩

/-- The scanner results from a position, with the fuel that its size gives. -/
def getopt_all (posix : Bool) (d : GetoptData) : List GetoptResult :=
  getopt_seq posix (d.size + 1) d

/-- The command that the loop queues for one scanner result, if any. -/
def queue_entry (r : GetoptResult) : Option String :=
  if r.c = chr 'f' then r.optarg.map (fun a => snprintf 128 ("script \x7b" ++ a ++ "\x7d"))
  else if r.c = chr 'c' then r.optarg
  else none

/-- The texts handed to `LOG_OUTPUT`, in call order. -/
def log_outputs (trace : List Event) : List String :=
  trace.filterMap (fun e => match e with
    | .LOG_OUTPUT msg => some msg
    | _ => none)

/-- The lines of a text, each ended by a line feed (a last line without one
counts too). -/
def split_lines : List Char → List (List Char)
  | [] => []
  | c :: cs =>
    if c = Char.ofNat 10 then [] :: split_lines cs
    else
      match split_lines cs with
      | [] => [[c]]
      | l :: ls => (c :: l) :: ls

/-- The lines of the usage text as the user sees them. -/
def usage_lines : List String :=
  (split_lines (String.join usage_text).data).map String.mk

/-- Whether a usage line is the line of the long option `name`: it starts
with the two dashes, the name and a blank. -/
def line_of_flag (name : String) (line : String) : Bool :=
  ("--" ++ name ++ " ").data.isPrefixOf line.data

/-- Sample surroundings: a build without `_WIN32`, with `HOME` set. -/
def linux_env : Env :=
  ⟨false, "", some "/home/user", "/usr/local/share/openocd", "openocd", false⟩

/-- Sample surroundings: a build without `_WIN32`, with `HOME` unset. -/
def linux_env_no_home : Env :=
  ⟨false, "", none, "/usr/local/share/openocd", "openocd", false⟩

/-- Sample surroundings: a `_WIN32` build, started from `C:\\OpenOCD\\bin`. -/
def windows_env : Env :=
  ⟨true, "C:\\OpenOCD\\bin\\openocd.exe", none, "/usr/local/share/openocd", "openocd", false⟩

/-- A path of 119 characters, the shortest that the buffer of 128 bytes cannot
hold between `script {` and the closing brace. -/
def long_path : String := String.mk (List.replicate 119 'a')

/-! ## The scanner: termination and well-formed results -/

theorem size_dropWhile_le (p : String → Bool) (l : List String) :
    ((l.dropWhile p).map (fun a => a.length + 1)).sum ≤ (l.map (fun a => a.length + 1)).sum := by
  induction l with
  | nil => simp
  | cons a l ih =>
    simp only [List.dropWhile]
    split
    · simp only [List.map_cons, List.sum_cons]; omega
    · exact le_refl _

theorem short_option_size (opts : String) (c : Char) (cs : List Char) (rest : List String) :
    (short_option opts c cs rest).2.size ≤ cs.length + (rest.map (fun a => a.length + 1)).sum := by
  unfold short_option
  split
  · simp [GetoptData.size]
  · split
    · simp [GetoptData.size]
    · split
      · simp [GetoptData.size]
      · split <;> simp [GetoptData.size]
      · split
        · simp [GetoptData.size]
        · split <;> simp [GetoptData.size]
          omega

theorem long_found_size (p : LongOpt) (oa : Option String) (rest : List String) :
    (long_found p oa rest).2.size = (rest.map (fun a => a.length + 1)).sum := by
  unfold long_found
  split <;> simp [GetoptData.size]

theorem process_long_option_size (lo : List LongOpt) (text : List Char) (rest : List String) :
    (process_long_option lo text rest).2.size ≤ (rest.map (fun a => a.length + 1)).sum := by
  unfold process_long_option
  split
  · simp [GetoptData.size]
  · split
    · split
      · simp [GetoptData.size]
      · simp [long_found_size]
    · split
      · split
        · simp [GetoptData.size]
        · simp [long_found_size]
      · simp [long_found_size]

theorem getopt_element_size_or (opts : String) (lo : List LongOpt) (rest : List String) :
    (getopt_element opts lo rest).1.c = -1 ∨
    (getopt_element opts lo rest).2.size < (rest.map (fun a => a.length + 1)).sum := by
  unfold getopt_element
  split
  · simp [c_end]
  · rename_i arg rest1
    split
    · simp [c_end]
    · split
      · rename_i text hdata
        have := process_long_option_size lo text rest1
        right
        simp only [List.map_cons, List.sum_cons] at this ⊢
        omega
      · rename_i c cs _ hdata
        have := short_option_size opts c cs rest1
        have hl : arg.length = cs.length + 2 := by
          simp [String.length, hdata]
        right
        simp only [List.map_cons, List.sum_cons] at this ⊢
        omega
      · simp [c_end]

theorem getopt_element_size (opts : String) (lo : List LongOpt) (rest : List String)
    (h : (getopt_element opts lo rest).1.c ≠ -1) :
    (getopt_element opts lo rest).2.size < (rest.map (fun a => a.length + 1)).sum :=
  (getopt_element_size_or opts lo rest).resolve_left h

/-- Every scanner call that does not end the scan leaves less to scan. -/
theorem getopt_long_size (posix : Bool) (opts : String) (lo : List LongOpt) (d : GetoptData)
    (h : (getopt_long posix opts lo d).1.c ≠ -1) :
    (getopt_long posix opts lo d).2.size < d.size := by
  unfold getopt_long at h ⊢
  split at h
  · rename_i c cs hd
    have := short_option_size opts c cs d.rest
    simp only [GetoptData.size, hd, List.length_cons] at this ⊢
    omega
  · rename_i hd
    have hle : ((if posix = true then d.rest else d.rest.dropWhile nonoption_p).map
        (fun a => a.length + 1)).sum ≤ (d.rest.map (fun a => a.length + 1)).sum := by
      split
      · exact le_refl _
      · exact size_dropWhile_le _ _
    have := getopt_element_size opts lo _ h
    simp only [GetoptData.size, hd, List.length_nil] at this ⊢
    omega

theorem short_option_wf (c : Char) (cs : List Char) (rest : List String) :
    (short_option optstring c cs rest).1.wf := by
  by_cases hh : 'h' = c
  · subst hh; simp [short_option, strchr, optstring, short_has_arg, GetoptResult.wf, chr]
  by_cases hv : 'v' = c
  · subst hv; simp [short_option, strchr, optstring, short_has_arg, GetoptResult.wf, chr]
  by_cases hp : 'p' = c
  · subst hp; simp [short_option, strchr, optstring, short_has_arg, GetoptResult.wf, chr]
  by_cases hk : ':' = c
  · subst hk; simp [short_option, strchr, optstring, short_has_arg, GetoptResult.wf, chr, c_error]
  by_cases hd : 'd' = c
  · subst hd
    simp only [short_option, strchr, optstring, short_has_arg, GetoptResult.wf, chr]
    simp
    split <;> simp
  by_cases hl : 'l' = c
  · subst hl
    simp only [short_option, strchr, optstring, short_has_arg, GetoptResult.wf, chr, c_error]
    simp
    repeat' split
    all_goals simp
  by_cases hf : 'f' = c
  · subst hf
    simp only [short_option, strchr, optstring, short_has_arg, GetoptResult.wf, chr, c_error]
    simp
    repeat' split
    all_goals simp
  by_cases hs : 's' = c
  · subst hs
    simp only [short_option, strchr, optstring, short_has_arg, GetoptResult.wf, chr, c_error]
    simp
    repeat' split
    all_goals simp
  by_cases hc : 'c' = c
  · subst hc
    simp only [short_option, strchr, optstring, short_has_arg, GetoptResult.wf, chr, c_error]
    simp
    repeat' split
    all_goals simp
  simp [short_option, strchr, optstring, GetoptResult.wf, chr, c_error, hh, hv, hp, hk, hd, hl,
    hf, hs, hc]

theorem find_long_mem {lo : List LongOpt} {name : List Char} {p : LongOpt}
    (h : find_long lo name = some p) : p ∈ lo := by
  unfold find_long at h
  split at h
  · rename_i q hq
    cases h
    exact List.mem_of_find?_eq_some hq
  · split at h
    · cases h
    · rename_i pfound more hfil
      split at h
      · cases h
      · cases h
        have : p ∈ lo.filter (fun p => name.isPrefixOf p.name.data) := by
          rw [hfil]; exact List.mem_cons_self _ _
        exact (List.mem_filter.mp this).1

theorem long_found_wf (p : LongOpt) (hp : p ∈ long_options) (oa : Option String)
    (rest : List String) (hoa : p.has_arg = .required_argument → oa ≠ none) :
    (long_found p oa rest).1.wf := by
  simp only [long_options, List.mem_cons, List.mem_singleton, List.not_mem_nil, or_false] at hp
  rcases hp with rfl | rfl | rfl | rfl | rfl | rfl | rfl | rfl <;>
    simp [long_found, GetoptResult.wf, chr] <;> simpa using hoa

theorem error_wf : GetoptResult.wf ⟨c_error, none, none⟩ := by
  simp [GetoptResult.wf, chr, c_error]

theorem c_end_wf : c_end.wf := by
  simp [GetoptResult.wf, chr, c_end]

theorem process_long_option_wf (text : List Char) (rest : List String) :
    (process_long_option long_options text rest).1.wf := by
  unfold process_long_option
  cases hfound : find_long long_options (text.takeWhile (fun x => x ≠ '=')) with
  | none => exact error_wf
  | some pfound =>
    have hp := find_long_mem hfound
    simp only
    split
    · split
      · exact error_wf
      · exact long_found_wf _ hp _ _ (by simp)
    · split
      · split
        · exact error_wf
        · exact long_found_wf _ hp _ _ (by simp)
      · rename_i hreq
        exact long_found_wf _ hp _ _ (fun h => absurd h hreq)

theorem getopt_element_wf (rest : List String) :
    (getopt_element optstring long_options rest).1.wf := by
  unfold getopt_element
  split
  · exact c_end_wf
  · split
    · exact c_end_wf
    · split
      · exact process_long_option_wf _ _
      · exact short_option_wf _ _ _
      · exact c_end_wf

/-- Every result of the scanner is well formed. -/
theorem getopt_long_wf (posix : Bool) (d : GetoptData) :
    (getopt_long posix optstring long_options d).1.wf := by
  unfold getopt_long
  split
  · exact short_option_wf _ _ _
  · exact getopt_element_wf _

/-! ## The loop as a run over the scanner results -/

theorem loop_body_wf (st : State) (r : GetoptResult) (hwf : r.wf) :
    loop_body st r = .ok (st.after [r]) := by
  obtain ⟨c, oa, store⟩ := r
  obtain ⟨h1, h2⟩ := hwf
  simp only at h1 h2
  rcases h1 with ⟨rfl, hc0⟩ | ⟨rfl, rfl | rfl⟩
  · simp only [loop_body, apply_store, State.after, run_trace, effects, List.flatMap_cons,
      List.flatMap_nil, List.append_nil, List.any_cons, List.any_nil, Bool.or_false, is_help,
      is_version]
    unfold handle_option
    simp only [hc0, if_false]
    by_cases hh : c = chr 'h'
    · subst hh; simp [chr, State.init]
    by_cases hv : c = chr 'v'
    · subst hv; simp [chr, State.init]
    by_cases hf : c = chr 'f'
    · subst hf
      cases oa with
      | none => exact absurd rfl (h2 (Or.inl rfl))
      | some a => simp [chr, State.init, State.emit]
    by_cases hs : c = chr 's'
    · subst hs
      cases oa with
      | none => exact absurd rfl (h2 (Or.inr rfl))
      | some a => simp [chr, State.init, State.emit]
    by_cases hd : c = chr 'd'
    · subst hd
      cases oa <;> simp [chr, State.init, State.emit]
    by_cases hl : c = chr 'l'
    · subst hl
      cases oa <;> simp [chr, State.init, State.emit]
    by_cases hc : c = chr 'c'
    · subst hc
      cases oa <;> simp [chr, State.init, State.emit]
    by_cases hp : c = chr 'p'
    · subst hp
      simp [chr, State.init, State.emit]
    simp [hh, hv, hf, hs, hd, hl, hc, hp, State.init]
  · simp [loop_body, apply_store, State.after, run_trace, effects, handle_option, is_help,
      is_version, State.init, chr]
  · simp [loop_body, apply_store, State.after, run_trace, effects, handle_option, is_help,
      is_version, State.init, chr]

theorem State.after_nil (st : State) : st.after [] = st := by
  simp [State.after, run_trace]

theorem State.after_cons (st : State) (r : GetoptResult) (rs : List GetoptResult) :
    (st.after [r]).after rs = st.after (r :: rs) := by
  simp only [State.after, run_trace, List.any_cons, List.any_nil, Bool.or_false,
    List.flatMap_cons, List.flatMap_nil, List.append_nil, List.append_assoc]
  congr 1
  · by_cases h1 : is_help r = true <;> by_cases h2 : rs.any is_help = true <;> simp [h1, h2]
  · by_cases h1 : is_version r = true <;> by_cases h2 : rs.any is_version = true <;>
      simp [h1, h2]

/-- With fuel above the size of what is left to scan, the loop ends and
leaves the state that handling the scanner results one by one gives. -/
theorem parse_loop_after (posix : Bool) :
    ∀ (fuel : Nat) (d : GetoptData) (st : State), d.size < fuel →
      parse_loop posix fuel d st = .ok (st.after (getopt_seq posix fuel d)) := by
  intro fuel
  induction fuel with
  | zero => intro d st h; omega
  | succ n ih =>
    intro d st h
    unfold parse_loop getopt_seq
    cases hg : getopt_long posix optstring long_options d with
    | mk r d1 =>
      simp only
      by_cases hend : r.c = -1
      · simp [hend, State.after_nil]
      · simp only [hend, if_false]
        have hwf : r.wf := by
          have := getopt_long_wf posix d
          rw [hg] at this
          exact this
        have hsz : d1.size < d.size := by
          have := getopt_long_size posix optstring long_options d (by rw [hg]; exact hend)
          rw [hg] at this
          exact this
        rw [loop_body_wf st r hwf]
        simp only
        rw [ih d1 _ (by omega), State.after_cons]

/-- More fuel than needed does not change the scanner results. -/
theorem getopt_seq_fuel (posix : Bool) :
    ∀ (fuel fuel2 : Nat) (d : GetoptData), d.size < fuel → d.size < fuel2 →
      getopt_seq posix fuel d = getopt_seq posix fuel2 d := by
  intro fuel
  induction fuel with
  | zero => intro fuel2 d h; omega
  | succ n ih =>
    intro fuel2 d h h2
    cases fuel2 with
    | zero => omega
    | succ m =>
      unfold getopt_seq
      cases hg : getopt_long posix optstring long_options d with
      | mk r d1 =>
        simp only
        by_cases hend : r.c = -1
        · simp [hend]
        · simp only [hend, if_false]
          have hsz : d1.size < d.size := by
            have := getopt_long_size posix optstring long_options d (by rw [hg]; exact hend)
            rw [hg] at this
            exact this
          rw [ih m d1 (by omega) (by omega)]

/-- The scanner results, one call at a time. -/
theorem getopt_all_step (posix : Bool) (d : GetoptData) :
    getopt_all posix d =
      if (getopt_long posix optstring long_options d).1.c = -1 then []
      else (getopt_long posix optstring long_options d).1 ::
        getopt_all posix (getopt_long posix optstring long_options d).2 := by
  unfold getopt_all
  conv => lhs; unfold getopt_seq
  cases hg : getopt_long posix optstring long_options d with
  | mk r d1 =>
    simp only
    by_cases hend : r.c = -1
    · simp [hend]
    · simp only [hend, if_false]
      have hsz : d1.size < d.size := by
        have := getopt_long_size posix optstring long_options d (by rw [hg]; exact hend)
        rw [hg] at this
        exact this
      rw [getopt_seq_fuel posix d.size (d1.size + 1) d1 hsz (Nat.lt_succ_self _)]

theorem scan_eq (posix : Bool) (argv : List String) :
    scan posix argv = getopt_all posix (getopt_start argv) := rfl

/-- The call of `parse_cmdline_args` never runs out of fuel: it is the part
after the loop, run on the state that the scanner results leave. -/
theorem parse_cmdline_args_eq (env : Env) (argv : List String) :
    parse_cmdline_args env argv =
      post_scan env (State.init.after (scan env.POSIXLY_CORRECT argv)) := by
  unfold parse_cmdline_args scan
  rw [parse_loop_after _ _ _ _ (Nat.lt_succ_self _)]

theorem add_default_dirs_error (env : Env) (st : State) (f : Fault)
    (h : add_default_dirs env st = .error f) :
    f = .null_pointer ∧ env.win32 = true ∧ cut_at_last backslash env.strExePath.data = none := by
  unfold add_default_dirs at h
  split at h
  · rename_i hw
    split at h
    · rename_i hcut
      cases h
      exact ⟨rfl, hw, hcut⟩
    · cases h
  · cases h

/-- The call always ends, and within the C semantics unless a `_WIN32` build
finds no backslash in the path of the executable: it calls `exit(-1)` or
`exit(0)`, or returns `ERROR_OK`, or stores through the null pointer of
options.c:63. -/
theorem parse_cmdline_args_outcome (env : Env) (argv : List String) :
    (parse_cmdline_args env argv).outcome = .exited (-1) ∨
    (parse_cmdline_args env argv).outcome = .exited 0 ∨
    (parse_cmdline_args env argv).outcome = .returned ERROR_OK ∨
    ((parse_cmdline_args env argv).outcome = .fault .null_pointer ∧ env.win32 = true ∧
      cut_at_last backslash env.strExePath.data = none) := by
  rw [parse_cmdline_args_eq]
  unfold post_scan
  split
  · exact Or.inl rfl
  · split
    · exact Or.inr (Or.inl rfl)
    · cases hd : add_default_dirs env (State.init.after (scan env.POSIXLY_CORRECT argv)) with
      | ok st1 => exact Or.inr (Or.inr (Or.inl rfl))
      | error f =>
        obtain ⟨hf, hw, hcut⟩ := add_default_dirs_error env _ f hd
        subst hf
        exact Or.inr (Or.inr (Or.inr ⟨rfl, hw, hcut⟩))

/-! ## What the loop adds to each list -/

theorem apply_store_trace (st : State) (store : Option (FlagVar × Int)) :
    (apply_store st store).trace = st.trace := by
  rcases store with _ | ⟨f, v⟩
  · rfl
  · cases f <;> rfl

/-- The calls that one turn of the loop makes do not depend on the store. -/
theorem effects_cases (c : Int) (oa : Option String) (store : Option (FlagVar × Int)) :
    effects ⟨c, oa, store⟩ =
      if c = chr 'f' then
        (oa.map (fun a => Event.add_config_command (snprintf 128 ("script \x7b" ++ a ++ "\x7d")))).toList
      else if c = chr 's' then (oa.map Event.add_script_search_dir).toList
      else if c = chr 'd' then
        [Event.command_run_line (snprintf 128 ("debug_level " ++ oa.getD "3"))]
      else if c = chr 'l' then
        (oa.map (fun a => Event.command_run_line (snprintf 128 ("log_output " ++ a)))).toList
      else if c = chr 'c' then (oa.map Event.add_config_command).toList
      else if c = chr 'p' then
        [Event.command_run_line pipe_command, Event.LOG_WARNING pipe_warning]
      else [] := by
  simp only [effects, loop_body]
  generalize hst : apply_store State.init store = st0
  have ht : st0.trace = [] := by rw [← hst]; exact apply_store_trace _ _
  unfold handle_option
  by_cases h0 : c = 0
  · subst h0; simp [chr, ht]
  by_cases hh : c = chr 'h'
  · subst hh; simp [chr, ht]
  by_cases hv : c = chr 'v'
  · subst hv; simp [chr, ht]
  by_cases hf : c = chr 'f'
  · subst hf; cases oa <;> simp [chr, State.emit, ht]
  by_cases hs : c = chr 's'
  · subst hs; cases oa <;> simp [chr, State.emit, ht]
  by_cases hd : c = chr 'd'
  · subst hd; cases oa <;> simp [chr, State.emit, ht]
  by_cases hl : c = chr 'l'
  · subst hl; cases oa <;> simp [chr, State.emit, ht]
  by_cases hc : c = chr 'c'
  · subst hc; cases oa <;> simp [chr, State.emit, ht]
  by_cases hp : c = chr 'p'
  · subst hp; simp [chr, State.emit, ht]
  simp [h0, hh, hv, hf, hs, hd, hl, hc, hp, ht]

theorem script_search_dirs_append (t1 t2 : List Event) :
    script_search_dirs (t1 ++ t2) = script_search_dirs t1 ++ script_search_dirs t2 := by
  simp [script_search_dirs, List.filterMap_append]

theorem script_search_dirs_effects (r : GetoptResult) :
    script_search_dirs (effects r) = (if r.c = chr 's' then r.optarg else none).toList := by
  obtain ⟨c, oa, store⟩ := r
  rw [effects_cases]
  by_cases hf : c = chr 'f'
  · subst hf; cases oa <;> simp [chr, script_search_dirs]
  by_cases hs : c = chr 's'
  · subst hs; cases oa <;> simp [chr, script_search_dirs]
  by_cases hd : c = chr 'd'
  · subst hd; cases oa <;> simp [chr, script_search_dirs]
  by_cases hl : c = chr 'l'
  · subst hl; cases oa <;> simp [chr, script_search_dirs]
  by_cases hc : c = chr 'c'
  · subst hc; cases oa <;> simp [chr, script_search_dirs]
  by_cases hp : c = chr 'p'
  · subst hp; simp [chr, script_search_dirs]
  simp [hf, hs, hd, hl, hc, hp, script_search_dirs]

/-- The loop registers the arguments of the search flags, in their order,
and nothing else. -/
theorem script_search_dirs_run_trace (rs : List GetoptResult) :
    script_search_dirs (run_trace rs) = search_args rs := by
  induction rs with
  | nil => rfl
  | cons r rs ih =>
    have h1 : run_trace (r :: rs) = effects r ++ run_trace rs := by
      simp [run_trace]
    rw [h1, script_search_dirs_append, ih, script_search_dirs_effects]
    simp only [search_args, List.filterMap_cons]
    cases hr : (if r.c = chr 's' then r.optarg else none) <;> simp [hr]

/-- The calls of `add_default_dirs` do not depend on the state it starts
from: they are appended to the trace. -/
theorem add_default_dirs_append (env : Env) (st : State) :
    add_default_dirs env st =
      match add_default_dirs env State.init with
      | .ok dflt => .ok { st with trace := st.trace ++ dflt.trace }
      | .error f => .error f := by
  unfold add_default_dirs
  split
  · split
    · rfl
    · simp [add_if_allocated, alloc_printf, State.emit, State.init]
  · cases env.HOME <;> simp [add_if_allocated, alloc_printf, State.emit, State.init]

theorem State.after_help (st : State) (rs : List GetoptResult) (h : rs.any is_help = false) :
    (st.after rs).help_flag = st.help_flag := by
  simp [State.after, h]

theorem State.after_version (st : State) (rs : List GetoptResult)
    (h : rs.any is_version = false) : (st.after rs).version_flag = st.version_flag := by
  simp [State.after, h]

/-! ## The claims -/

theorem scan_two_search (posix : Bool) (prog dirA dirB : String) :
    scan posix [prog, "-s", dirA, "-s", dirB] =
      [⟨chr 's', some dirA, none⟩, ⟨chr 's', some dirB, none⟩] := by
  cases posix <;>
  · rw [scan_eq, getopt_all_step]
    simp [getopt_start, getopt_long, getopt_element, nonoption_p, short_option, strchr,
      optstring, short_has_arg, chr]
    rw [getopt_all_step]
    simp [getopt_long, getopt_element, nonoption_p, short_option, strchr,
      optstring, short_has_arg, chr]
    rw [getopt_all_step]
    simp [getopt_long, getopt_element, c_end]

/-- C1: for every argument vector that requests neither help nor version,
`parse_cmdline_args` returns `ERROR_OK` and the search-path list is the
arguments of the search flags, in the order the scanner met them, followed by
the directories that `add_default_dirs` appends; for `-s dirA -s dirB` the
list begins with `dirA`, `dirB`. -/
theorem search_dirs_then_defaults (env : Env) (argv : List String) (dflt : State)
    (hhelp : (scan env.POSIXLY_CORRECT argv).any is_help = false)
    (hvers : (scan env.POSIXLY_CORRECT argv).any is_version = false)
    (hdflt : add_default_dirs env State.init = .ok dflt) :
    (parse_cmdline_args env argv).outcome = .returned ERROR_OK ∧
    script_search_dirs (parse_cmdline_args env argv).state.trace =
      search_args (scan env.POSIXLY_CORRECT argv) ++ script_search_dirs dflt.trace ∧
    ∀ prog dirA dirB : String,
      script_search_dirs (parse_cmdline_args env [prog, "-s", dirA, "-s", dirB]).state.trace =
        dirA :: dirB :: script_search_dirs dflt.trace := by
  have key : ∀ av : List String, (scan env.POSIXLY_CORRECT av).any is_help = false →
      (scan env.POSIXLY_CORRECT av).any is_version = false →
      parse_cmdline_args env av =
        ⟨{ State.init.after (scan env.POSIXLY_CORRECT av) with
            trace := (State.init.after (scan env.POSIXLY_CORRECT av)).trace ++ dflt.trace },
          .returned ERROR_OK⟩ := by
    intro av h1 h2
    rw [parse_cmdline_args_eq]
    unfold post_scan
    rw [State.after_help _ _ h1, State.after_version _ _ h2, add_default_dirs_append, hdflt]
    simp [State.init]
  refine ⟨?_, ?_, ?_⟩
  · rw [key argv hhelp hvers]
  · rw [key argv hhelp hvers]
    simp [State.after, State.init, script_search_dirs_append, script_search_dirs_run_trace]
  · intro prog dirA dirB
    have hs := scan_two_search env.POSIXLY_CORRECT prog dirA dirB
    rw [key _ (by rw [hs]; simp [is_help, chr]) (by rw [hs]; simp [is_version, chr])]
    simp [State.after, State.init, script_search_dirs_append, script_search_dirs_run_trace, hs,
      search_args]

theorem search_dirs_then_defaults_witness :
    (parse_cmdline_args linux_env ["openocd", "-s", "a", "-f", "x.cfg", "--search", "b"]).outcome
        = .returned ERROR_OK ∧
    script_search_dirs
        (parse_cmdline_args linux_env
          ["openocd", "-s", "a", "-f", "x.cfg", "--search", "b"]).state.trace =
      ["a", "b", "/home/user/.openocd", "/usr/local/share/openocd/site",
        "/usr/local/share/openocd/scripts"] :=
  have h := search_dirs_then_defaults linux_env
    ["openocd", "-s", "a", "-f", "x.cfg", "--search", "b"]
    ⟨0, 0, [.add_script_search_dir "/home/user/.openocd",
      .add_script_search_dir "/usr/local/share/openocd/site",
      .add_script_search_dir "/usr/local/share/openocd/scripts"]⟩
    (by decide) (by decide) rfl
  ⟨h.1, h.2.1.trans (by decide)⟩

theorem State.after_help_set (st : State) (rs : List GetoptResult) (h : rs.any is_help = true) :
    (st.after rs).help_flag = 1 := by
  simp only [State.after, h, if_true]

/-- When a help flag was scanned, the call prints the usage text after the
calls of the loop and exits with -1. -/
theorem parse_cmdline_args_help (env : Env) (argv : List String)
    (hhelp : (scan env.POSIXLY_CORRECT argv).any is_help = true) :
    parse_cmdline_args env argv =
      ⟨{ State.init.after (scan env.POSIXLY_CORRECT argv) with
          trace := run_trace (scan env.POSIXLY_CORRECT argv) ++ usage_text.map Event.LOG_OUTPUT },
        .exited (-1)⟩ := by
  rw [parse_cmdline_args_eq]
  unfold post_scan
  rw [if_pos (by rw [State.after_help_set _ _ hhelp]; decide)]
  simp only [State.after, State.init, List.nil_append]

/-- C5: for every argument vector in which the scanner meets both a help
flag and a version flag, in either order, `parse_cmdline_args` prints the
usage text and calls `exit(-1)`; it does not take the version path that
calls `exit(0)`. -/
theorem help_wins_over_version (env : Env) (argv : List String)
    (hhelp : (scan env.POSIXLY_CORRECT argv).any is_help = true)
    (_hvers : (scan env.POSIXLY_CORRECT argv).any is_version = true) :
    (parse_cmdline_args env argv).outcome = .exited (-1) ∧
    (parse_cmdline_args env argv).outcome ≠ .exited 0 ∧
    (parse_cmdline_args env argv).state.trace =
      run_trace (scan env.POSIXLY_CORRECT argv) ++ usage_text.map Event.LOG_OUTPUT := by
  rw [parse_cmdline_args_help env argv hhelp]
  simp

theorem help_wins_over_version_witness :
    (scan false ["openocd", "--version", "-c", "init", "-h"]).any is_help = true ∧
    (scan false ["openocd", "--version", "-c", "init", "-h"]).any is_version = true ∧
    (parse_cmdline_args linux_env ["openocd", "--version", "-c", "init", "-h"]).outcome
      = .exited (-1) ∧
    (scan false ["openocd", "--help", "-v"]).any is_help = true ∧
    (scan false ["openocd", "--help", "-v"]).any is_version = true ∧
    (parse_cmdline_args linux_env ["openocd", "--help", "-v"]).outcome = .exited (-1) :=
  ⟨by decide, by decide,
    (help_wins_over_version linux_env ["openocd", "--version", "-c", "init", "-h"]
      (by decide) (by decide)).1,
    by decide, by decide,
    (help_wins_over_version linux_env ["openocd", "--help", "-v"] (by decide) (by decide)).1⟩

/-- C6: for every argument vector in which the scanner meets a help flag,
whatever the other flags, `parse_cmdline_args` ends in `exit(-1)` and
`add_default_dirs` is not run: the trace is the calls of the loop followed by
the usage text, and the search-path list is exactly the arguments of the
search flags. -/
theorem help_skips_default_dirs (env : Env) (argv : List String)
    (hhelp : (scan env.POSIXLY_CORRECT argv).any is_help = true) :
    (parse_cmdline_args env argv).outcome = .exited (-1) ∧
    (parse_cmdline_args env argv).state.trace =
      run_trace (scan env.POSIXLY_CORRECT argv) ++ usage_text.map Event.LOG_OUTPUT ∧
    script_search_dirs (parse_cmdline_args env argv).state.trace =
      search_args (scan env.POSIXLY_CORRECT argv) := by
  rw [parse_cmdline_args_help env argv hhelp]
  refine ⟨rfl, rfl, ?_⟩
  simp only [script_search_dirs_append, script_search_dirs_run_trace]
  simp [script_search_dirs, usage_text]

theorem help_skips_default_dirs_witness :
    (scan false ["openocd", "-s", "a", "--help", "-s", "b", "-d3"]).any is_help = true ∧
    (parse_cmdline_args linux_env
      ["openocd", "-s", "a", "--help", "-s", "b", "-d3"]).outcome = .exited (-1) ∧
    script_search_dirs (parse_cmdline_args linux_env
      ["openocd", "-s", "a", "--help", "-s", "b", "-d3"]).state.trace = ["a", "b"] :=
  have h := help_skips_default_dirs linux_env
    ["openocd", "-s", "a", "--help", "-s", "b", "-d3"] (by decide)
  ⟨by decide, h.1, h.2.2.trans (by decide)⟩

/-- What the part after the loop adds to the trace: the usage text, nothing,
or the calls of `add_default_dirs`. -/
theorem post_scan_trace (env : Env) (st : State) :
    ∃ tail, (post_scan env st).state.trace = st.trace ++ tail ∧
      (tail = usage_text.map Event.LOG_OUTPUT ∨ tail = [] ∨
        ∃ dflt, add_default_dirs env State.init = .ok dflt ∧ tail = dflt.trace) := by
  unfold post_scan
  split
  · exact ⟨_, rfl, Or.inl rfl⟩
  · split
    · exact ⟨[], by simp, Or.inr (Or.inl rfl)⟩
    · rw [add_default_dirs_append]
      cases hd : add_default_dirs env State.init with
      | error f => exact ⟨[], by simp, Or.inr (Or.inl rfl)⟩
      | ok dflt => exact ⟨dflt.trace, rfl, Or.inr (Or.inr ⟨dflt, rfl, rfl⟩)⟩

theorem run_lines_append (t1 t2 : List Event) :
    run_lines (t1 ++ t2) = run_lines t1 ++ run_lines t2 := by
  simp [run_lines, List.filterMap_append]

theorem config_commands_append (t1 t2 : List Event) :
    config_commands (t1 ++ t2) = config_commands t1 ++ config_commands t2 := by
  simp [config_commands, List.filterMap_append]

/-- The function `add_default_dirs` runs no command and queues none. -/
theorem add_default_dirs_only_dirs (env : Env) (dflt : State)
    (h : add_default_dirs env State.init = .ok dflt) :
    run_lines dflt.trace = [] ∧ config_commands dflt.trace = [] := by
  unfold add_default_dirs at h
  split at h
  · split at h
    · cases h
    · cases h
      simp [add_if_allocated, alloc_printf, State.emit, State.init, run_lines, config_commands]
  · cases h
    cases env.HOME <;>
      simp [add_if_allocated, alloc_printf, State.emit, State.init, run_lines, config_commands]

/-- The part after the loop runs no command and queues none. -/
theorem post_scan_views (env : Env) (st : State) :
    run_lines (post_scan env st).state.trace = run_lines st.trace ∧
    config_commands (post_scan env st).state.trace = config_commands st.trace := by
  obtain ⟨tail, ht, hcases⟩ := post_scan_trace env st
  rw [ht, run_lines_append, config_commands_append]
  rcases hcases with rfl | rfl | ⟨dflt, hd, rfl⟩
  · simp [run_lines, config_commands, usage_text]
  · simp [run_lines, config_commands]
  · obtain ⟨h1, h2⟩ := add_default_dirs_only_dirs env dflt hd
    simp [h1, h2]

/-- The lines run during the call are those of the loop. -/
theorem run_lines_parse (env : Env) (argv : List String) :
    run_lines (parse_cmdline_args env argv).state.trace =
      run_lines (run_trace (scan env.POSIXLY_CORRECT argv)) := by
  rw [parse_cmdline_args_eq, (post_scan_views env _).1]
  simp [State.after, State.init]

/-- The commands queued during the call are those of the loop. -/
theorem config_commands_parse (env : Env) (argv : List String) :
    config_commands (parse_cmdline_args env argv).state.trace =
      config_commands (run_trace (scan env.POSIXLY_CORRECT argv)) := by
  rw [parse_cmdline_args_eq, (post_scan_views env _).2]
  simp [State.after, State.init]

theorem scan_debug_attached (posix : Bool) (prog level : String) (h : level ≠ "") :
    scan posix [prog, "-d" ++ level] = [⟨chr 'd', some level, none⟩] := by
  have hne : level.data ≠ [] := fun hd => h (String.ext hd)
  have h2 : ("-d" ++ level).data = '-' :: 'd' :: level.data := by simp
  have h3 : ¬ ("-d" ++ level = "--") := by
    intro he
    have := congrArg String.data he
    rw [h2] at this
    simp at this
  cases posix <;>
  · rw [scan_eq, getopt_all_step]
    simp [getopt_start, getopt_long, getopt_element, nonoption_p, short_option, strchr,
      optstring, short_has_arg, chr, h2, h3, hne]
    rw [getopt_all_step]
    simp [getopt_long, getopt_element, c_end]

theorem snprintf_short (size : Nat) (text : String) (h : text.length < size) :
    snprintf size text = text := by
  unfold snprintf
  rw [List.take_of_length_le]
  simp only [String.length] at h
  omega

/-- The lines run for a command line that holds the debug flag alone. -/
theorem debug_level_run_lines (env : Env) (prog : String) :
    run_lines (parse_cmdline_args env [prog, "-d"]).state.trace = ["debug_level 3"] ∧
    run_lines (parse_cmdline_args env [prog, "-d1"]).state.trace = ["debug_level 1"] ∧
    run_lines (parse_cmdline_args env [prog, "--debug=1"]).state.trace = ["debug_level 1"] ∧
    run_lines (parse_cmdline_args env [prog, "-d", "1"]).state.trace = ["debug_level 3"] ∧
    ∀ level : String, level ≠ "" → level.length ≤ 115 →
      run_lines (parse_cmdline_args env [prog, "-d" ++ level]).state.trace =
        ["debug_level " ++ level] := by
  have e1 : ∀ b, scan b [prog, "-d"] = [⟨chr 'd', none, none⟩] := by
    intro b; cases b <;> rfl
  have e2 : ∀ b, scan b [prog, "-d1"] = [⟨chr 'd', some "1", none⟩] := by
    intro b; cases b <;> rfl
  have e3 : ∀ b, scan b [prog, "--debug=1"] = [⟨chr 'd', some "1", none⟩] := by
    intro b; cases b <;> rfl
  have e4 : ∀ b, scan b [prog, "-d", "1"] = [⟨chr 'd', none, none⟩] := by
    intro b; cases b <;> rfl
  refine ⟨?_, ?_, ?_, ?_, ?_⟩
  · rw [run_lines_parse, e1]; rfl
  · rw [run_lines_parse, e2]; rfl
  · rw [run_lines_parse, e3]; rfl
  · rw [run_lines_parse, e4]; rfl
  · intro level hne hlen
    rw [run_lines_parse, scan_debug_attached _ _ _ hne]
    simp only [run_trace, List.flatMap_cons, List.flatMap_nil, List.append_nil, effects_cases]
    have hs : snprintf 128 ("debug_level " ++ level) = "debug_level " ++ level :=
      snprintf_short _ _ (by
        have : ("debug_level " ++ level).length = 12 + level.length := by
          rw [String.length_append]; rfl
        omega)
    simp [chr, run_lines, hs]

theorem scan_debug_long (posix : Bool) (prog level : String) :
    scan posix [prog, "--debug=" ++ level] = [⟨chr 'd', some level, none⟩] := by
  have h2 : ("--debug=" ++ level).data =
      '-' :: '-' :: 'd' :: 'e' :: 'b' :: 'u' :: 'g' :: '=' :: level.data := by simp
  have h3 : ¬ ("--debug=" ++ level = "--") := by
    intro he
    have := congrArg String.data he
    rw [h2] at this
    simp at this
  have h4 : find_long long_options ['d', 'e', 'b', 'u', 'g'] =
      some ⟨"debug", .optional_argument, none, chr 'd'⟩ := by decide
  cases posix <;>
  · rw [scan_eq, getopt_all_step]
    simp [getopt_start, getopt_long, getopt_element, nonoption_p, process_long_option,
      long_found, chr, h2, h3, h4, List.takeWhile, List.dropWhile]
    rw [getopt_all_step]
    simp [getopt_long, getopt_element, c_end]

/-- The one call that a turn of the loop makes for the debug flag, when the
level fits the buffer. -/
theorem effects_debug (oa : Option String) (store : Option (FlagVar × Int))
    (h : (oa.getD "3").length ≤ 115) :
    effects ⟨chr 'd', oa, store⟩ = [.command_run_line ("debug_level " ++ oa.getD "3")] := by
  rw [effects_cases]
  have hs : snprintf 128 ("debug_level " ++ oa.getD "3") = "debug_level " ++ oa.getD "3" :=
    snprintf_short _ _ (by
      have : ("debug_level " ++ oa.getD "3").length = 12 + (oa.getD "3").length := by
        rw [String.length_append]; rfl
      omega)
  simp [chr, hs]

/-- Without a help or version flag the trace is the calls of the loop followed
by those of `add_default_dirs` (none when it faults). -/
theorem parse_no_exit_trace (env : Env) (argv : List String)
    (hhelp : (scan env.POSIXLY_CORRECT argv).any is_help = false)
    (hvers : (scan env.POSIXLY_CORRECT argv).any is_version = false) :
    ∃ tail, (parse_cmdline_args env argv).state.trace =
        run_trace (scan env.POSIXLY_CORRECT argv) ++ tail ∧
      (tail = [] ∨ ∃ dflt, add_default_dirs env State.init = .ok dflt ∧ tail = dflt.trace) := by
  rw [parse_cmdline_args_eq]
  unfold post_scan
  rw [State.after_help _ _ hhelp, State.after_version _ _ hvers, add_default_dirs_append]
  cases hd : add_default_dirs env State.init with
  | error f => exact ⟨[], by simp [State.init, State.after], Or.inl rfl⟩
  | ok dflt => exact ⟨dflt.trace, by simp [State.init, State.after], Or.inr ⟨dflt, rfl, rfl⟩⟩

/-- The trace of a command line on which the scanner meets the debug flag
alone: the call `debug_level <N>` comes first, before the calls of
`add_default_dirs`. -/
theorem single_debug_trace (env : Env) (argv : List String) (oa : Option String)
    (hs : scan env.POSIXLY_CORRECT argv = [⟨chr 'd', oa, none⟩])
    (hl : (oa.getD "3").length ≤ 115) :
    ∃ tail, (parse_cmdline_args env argv).state.trace =
        [.command_run_line ("debug_level " ++ oa.getD "3")] ++ tail ∧
      (tail = [] ∨ ∃ dflt, add_default_dirs env State.init = .ok dflt ∧ tail = dflt.trace) := by
  obtain ⟨tail, ht, hc⟩ := parse_no_exit_trace env argv
    (by rw [hs]; simp [is_help, chr]) (by rw [hs]; simp [is_version, chr])
  refine ⟨tail, ?_, hc⟩
  rw [ht, hs]
  simp [run_trace, effects_debug oa none hl]

/-- C4, as amended: the debug flag dispatches `debug_level <N>` to
`command_run_line` synchronously during parsing: on every command line the
call is made in the loop turn of that flag, after every call of the flags
before it and before every call of the flags after it and before what follows
the loop. N is the level written in the same word as the flag (`-dN` with N
of 1 to 115 characters, or `--debug=N` with N of at most 115 characters) and
3 when there is none: `-d` alone gives `debug_level 3`, `-d1` and `--debug=1`
give `debug_level 1`, and `-d 1`, with the level as a word of its own, gives
`debug_level 3`. -/
theorem debug_level_same_word (env : Env) (prog : String) :
    (∀ (argv : List String) (before : List GetoptResult) (r : GetoptResult)
        (after : List GetoptResult),
      scan env.POSIXLY_CORRECT argv = before ++ r :: after → r.c = chr 'd' →
      (r.optarg.getD "3").length ≤ 115 →
      ∃ tail, (parse_cmdline_args env argv).state.trace =
          run_trace before ++ [.command_run_line ("debug_level " ++ r.optarg.getD "3")] ++
            run_trace after ++ tail ∧
        (tail = usage_text.map Event.LOG_OUTPUT ∨ tail = [] ∨
          ∃ dflt, add_default_dirs env State.init = .ok dflt ∧ tail = dflt.trace)) ∧
    (∀ posix : Bool,
      scan posix [prog, "-d"] = [⟨chr 'd', none, none⟩] ∧
      scan posix [prog, "-d", "1"] = [⟨chr 'd', none, none⟩] ∧
      (∀ level : String, level ≠ "" →
        scan posix [prog, "-d" ++ level] = [⟨chr 'd', some level, none⟩]) ∧
      (∀ level : String,
        scan posix [prog, "--debug=" ++ level] = [⟨chr 'd', some level, none⟩])) ∧
    (∃ tail, (parse_cmdline_args env [prog, "-d"]).state.trace =
        [.command_run_line "debug_level 3"] ++ tail ∧
      (tail = [] ∨ ∃ dflt, add_default_dirs env State.init = .ok dflt ∧ tail = dflt.trace)) ∧
    (∃ tail, (parse_cmdline_args env [prog, "-d", "1"]).state.trace =
        [.command_run_line "debug_level 3"] ++ tail ∧
      (tail = [] ∨ ∃ dflt, add_default_dirs env State.init = .ok dflt ∧ tail = dflt.trace)) ∧
    (∃ tail, (parse_cmdline_args env [prog, "-d1"]).state.trace =
        [.command_run_line "debug_level 1"] ++ tail ∧
      (tail = [] ∨ ∃ dflt, add_default_dirs env State.init = .ok dflt ∧ tail = dflt.trace)) ∧
    (∃ tail, (parse_cmdline_args env [prog, "--debug=1"]).state.trace =
        [.command_run_line "debug_level 1"] ++ tail ∧
      (tail = [] ∨ ∃ dflt, add_default_dirs env State.init = .ok dflt ∧ tail = dflt.trace)) ∧
    (∀ level : String, level ≠ "" → level.length ≤ 115 →
      ∃ tail, (parse_cmdline_args env [prog, "-d" ++ level]).state.trace =
          [.command_run_line ("debug_level " ++ level)] ++ tail ∧
        (tail = [] ∨
          ∃ dflt, add_default_dirs env State.init = .ok dflt ∧ tail = dflt.trace)) ∧
    (∀ level : String, level.length ≤ 115 →
      ∃ tail, (parse_cmdline_args env [prog, "--debug=" ++ level]).state.trace =
          [.command_run_line ("debug_level " ++ level)] ++ tail ∧
        (tail = [] ∨
          ∃ dflt, add_default_dirs env State.init = .ok dflt ∧ tail = dflt.trace)) ∧
    run_lines (parse_cmdline_args env [prog, "-d"]).state.trace = ["debug_level 3"] ∧
    run_lines (parse_cmdline_args env [prog, "-d", "1"]).state.trace = ["debug_level 3"] ∧
    run_lines (parse_cmdline_args env [prog, "-d1"]).state.trace = ["debug_level 1"] ∧
    run_lines (parse_cmdline_args env [prog, "--debug=1"]).state.trace = ["debug_level 1"] := by
  have e1 : ∀ b, scan b [prog, "-d"] = [⟨chr 'd', none, none⟩] := by
    intro b; cases b <;> rfl
  have e2 : ∀ b, scan b [prog, "-d1"] = [⟨chr 'd', some "1", none⟩] := by
    intro b; cases b <;> rfl
  have e3 : ∀ b, scan b [prog, "--debug=1"] = [⟨chr 'd', some "1", none⟩] := by
    intro b; cases b <;> rfl
  have e4 : ∀ b, scan b [prog, "-d", "1"] = [⟨chr 'd', none, none⟩] := by
    intro b; cases b <;> rfl
  have hrl := debug_level_run_lines env prog
  refine ⟨?_, ?_, ?_, ?_, ?_, ?_, ?_, ?_, hrl.1, hrl.2.2.2.1, hrl.2.1, hrl.2.2.1⟩
  · intro argv before r after hscan hd hlen
    have heff : effects r = [.command_run_line ("debug_level " ++ r.optarg.getD "3")] := by
      obtain ⟨c, oa, store⟩ := r
      simp only at hd
      subst hd
      exact effects_debug oa store hlen
    rw [parse_cmdline_args_eq]
    obtain ⟨tail, ht, hcases⟩ :=
      post_scan_trace env (State.init.after (scan env.POSIXLY_CORRECT argv))
    refine ⟨tail, ?_, hcases⟩
    rw [ht, hscan]
    have h1 : run_trace (before ++ r :: after) =
        run_trace before ++ effects r ++ run_trace after := by
      simp [run_trace]
    simp only [State.after, State.init, List.nil_append, h1, heff]
  · intro posix
    exact ⟨e1 posix, e4 posix, fun level h => scan_debug_attached posix prog level h,
      fun level => scan_debug_long posix prog level⟩
  · exact single_debug_trace env _ none (e1 _) (by decide)
  · exact single_debug_trace env _ none (e4 _) (by decide)
  · exact single_debug_trace env _ (some "1") (e2 _) (by decide)
  · exact single_debug_trace env _ (some "1") (e3 _) (by decide)
  · intro level hne hlen
    exact single_debug_trace env _ (some level) (scan_debug_attached _ _ _ hne) hlen
  · intro level hlen
    exact single_debug_trace env _ (some level) (scan_debug_long _ _ _) hlen

/-- C4, as stated, fails: with the level as a word of its own, `-d 1` makes
the call `debug_level 3`, not `debug_level 1`. -/
theorem debug_level_separate_word :
    (parse_cmdline_args linux_env ["openocd", "-d", "1"]).state.trace =
      [.command_run_line "debug_level 3",
        .add_script_search_dir "/home/user/.openocd",
        .add_script_search_dir "/usr/local/share/openocd/site",
        .add_script_search_dir "/usr/local/share/openocd/scripts"] ∧
    run_lines (parse_cmdline_args linux_env ["openocd", "-d", "1"]).state.trace
      = ["debug_level 3"] ∧
    ¬ ("debug_level 1" ∈
      run_lines (parse_cmdline_args linux_env ["openocd", "-d", "1"]).state.trace) := by
  decide

theorem debug_level_same_word_witness :
    (scan linux_env.POSIXLY_CORRECT ["openocd", "-s", "tcl", "-d2", "-f", "x.cfg"] =
      [⟨chr 's', some "tcl", none⟩] ++ ⟨chr 'd', some "2", none⟩ ::
        [⟨chr 'f', some "x.cfg", none⟩]) ∧
    (∃ tail,
      (parse_cmdline_args linux_env ["openocd", "-s", "tcl", "-d2", "-f", "x.cfg"]).state.trace =
        run_trace [⟨chr 's', some "tcl", none⟩] ++
          [.command_run_line ("debug_level " ++ (some "2").getD "3")] ++
          run_trace [⟨chr 'f', some "x.cfg", none⟩] ++ tail ∧
      (tail = usage_text.map Event.LOG_OUTPUT ∨ tail = [] ∨
        ∃ dflt, add_default_dirs linux_env State.init = .ok dflt ∧ tail = dflt.trace)) ∧
    (∃ tail, (parse_cmdline_args linux_env ["openocd", "-d" ++ "2"]).state.trace =
        [.command_run_line ("debug_level " ++ "2")] ++ tail ∧
      (tail = [] ∨
        ∃ dflt, add_default_dirs linux_env State.init = .ok dflt ∧ tail = dflt.trace)) ∧
    (∃ tail, (parse_cmdline_args linux_env ["openocd", "--debug=" ++ "0"]).state.trace =
        [.command_run_line ("debug_level " ++ "0")] ++ tail ∧
      (tail = [] ∨
        ∃ dflt, add_default_dirs linux_env State.init = .ok dflt ∧ tail = dflt.trace)) ∧
    scan false ["openocd", "-d" ++ "2"] = [⟨chr 'd', some "2", none⟩] :=
  ⟨by decide,
    (debug_level_same_word linux_env "openocd").1
      ["openocd", "-s", "tcl", "-d2", "-f", "x.cfg"]
      [⟨chr 's', some "tcl", none⟩] ⟨chr 'd', some "2", none⟩ [⟨chr 'f', some "x.cfg", none⟩]
      (by decide) rfl (by decide),
    (debug_level_same_word linux_env "openocd").2.2.2.2.2.2.1 "2" (by decide) (by decide),
    (debug_level_same_word linux_env "openocd").2.2.2.2.2.2.2.1 "0" (by decide),
    ((debug_level_same_word linux_env "openocd").2.1 false).2.2.1 "2" (by decide)⟩

/-- C8, as amended: when `HOME` is unset and parsing completes without an
early exit, the directories that `add_default_dirs` appends hold no
home-relative entry; in a build without `_WIN32` they are exactly
`PKGDATADIR/site` then `PKGDATADIR/scripts`, with no installation-relative
entry; in a `_WIN32` build they are exactly the three installation-relative
entries (the parent of the directory of the executable, its
`share/PACKAGE/scripts` and its `scripts`), with no fixed entry. -/
theorem default_dirs_without_home (env : Env) (argv : List String)
    (hhome : env.HOME = none)
    (hhelp : (scan env.POSIXLY_CORRECT argv).any is_help = false)
    (hvers : (scan env.POSIXLY_CORRECT argv).any is_version = false) :
    (env.win32 = false →
      (parse_cmdline_args env argv).outcome = .returned ERROR_OK ∧
      (parse_cmdline_args env argv).state.trace =
        run_trace (scan env.POSIXLY_CORRECT argv) ++
          [.add_script_search_dir (env.PKGDATADIR ++ "/site"),
            .add_script_search_dir (env.PKGDATADIR ++ "/scripts")]) ∧
    (env.win32 = true → ∀ cut, cut_at_last backslash env.strExePath.data = some cut →
      (parse_cmdline_args env argv).outcome = .returned ERROR_OK ∧
      (parse_cmdline_args env argv).state.trace =
        run_trace (scan env.POSIXLY_CORRECT argv) ++
          [.add_script_search_dir (String.mk (to_unix_separators cut) ++ "/.."),
            .add_script_search_dir (String.mk (to_unix_separators cut) ++
              ("/../share/" ++ env.PACKAGE ++ "/scripts")),
            .add_script_search_dir (String.mk (to_unix_separators cut) ++ "/../scripts")]) := by
  have key : parse_cmdline_args env argv =
      match add_default_dirs env (State.init.after (scan env.POSIXLY_CORRECT argv)) with
      | .ok st1 => ⟨st1, .returned ERROR_OK⟩
      | .error f => ⟨State.init.after (scan env.POSIXLY_CORRECT argv), .fault f⟩ := by
    rw [parse_cmdline_args_eq]
    unfold post_scan
    rw [State.after_help _ _ hhelp, State.after_version _ _ hvers]
    simp [State.init]
  rw [key]
  constructor
  · intro hw
    simp [add_default_dirs, hw, hhome, State.emit, State.after, State.init]
  · intro hw cut hcut
    simp [add_default_dirs, hw, hcut, add_if_allocated, alloc_printf, State.emit, State.after,
      State.init]

theorem default_dirs_without_home_witness :
    (parse_cmdline_args linux_env_no_home ["openocd", "-s", "tcl"]).state.trace =
      run_trace (scan false ["openocd", "-s", "tcl"]) ++
        [.add_script_search_dir ("/usr/local/share/openocd" ++ "/site"),
          .add_script_search_dir ("/usr/local/share/openocd" ++ "/scripts")] ∧
    (parse_cmdline_args windows_env ["openocd", "-s", "tcl"]).state.trace =
      run_trace (scan false ["openocd", "-s", "tcl"]) ++
        [.add_script_search_dir ("C:/OpenOCD/bin" ++ "/.."),
          .add_script_search_dir ("C:/OpenOCD/bin" ++ ("/../share/" ++ "openocd" ++ "/scripts")),
          .add_script_search_dir ("C:/OpenOCD/bin" ++ "/../scripts")] :=
  ⟨((default_dirs_without_home linux_env_no_home ["openocd", "-s", "tcl"] rfl (by decide)
      (by decide)).1 rfl).2,
   ((default_dirs_without_home windows_env ["openocd", "-s", "tcl"] rfl (by decide)
      (by decide)).2 rfl "C:\\OpenOCD\\bin".data (by decide)).2⟩

/-- C8, as stated, fails: with `HOME` unset, a build without `_WIN32` appends
only the two fixed directories and none relative to the executable, and a
`_WIN32` build appends only the three directories relative to the executable
and neither fixed one. -/
theorem default_dirs_not_both_kinds :
    (parse_cmdline_args linux_env_no_home ["openocd"]).outcome = .returned ERROR_OK ∧
    script_search_dirs (parse_cmdline_args linux_env_no_home ["openocd"]).state.trace =
      ["/usr/local/share/openocd/site", "/usr/local/share/openocd/scripts"] ∧
    (parse_cmdline_args windows_env ["openocd"]).outcome = .returned ERROR_OK ∧
    script_search_dirs (parse_cmdline_args windows_env ["openocd"]).state.trace =
      ["C:/OpenOCD/bin/..", "C:/OpenOCD/bin/../share/openocd/scripts",
        "C:/OpenOCD/bin/../scripts"] ∧
    ¬ ("/usr/local/share/openocd/site" ∈
      script_search_dirs (parse_cmdline_args windows_env ["openocd"]).state.trace) ∧
    ¬ ("/usr/local/share/openocd/scripts" ∈
      script_search_dirs (parse_cmdline_args windows_env ["openocd"]).state.trace) := by
  decide

/-! ### The usage text -/

theorem log_outputs_append (t1 t2 : List Event) :
    log_outputs (t1 ++ t2) = log_outputs t1 ++ log_outputs t2 := by
  simp [log_outputs, List.filterMap_append]

theorem log_outputs_effects (r : GetoptResult) : log_outputs (effects r) = [] := by
  obtain ⟨c, oa, store⟩ := r
  rw [effects_cases]
  by_cases hf : c = chr 'f'
  · subst hf; cases oa <;> simp [chr, log_outputs]
  by_cases hs : c = chr 's'
  · subst hs; cases oa <;> simp [chr, log_outputs]
  by_cases hd : c = chr 'd'
  · subst hd; cases oa <;> simp [chr, log_outputs]
  by_cases hl : c = chr 'l'
  · subst hl; cases oa <;> simp [chr, log_outputs]
  by_cases hc : c = chr 'c'
  · subst hc; cases oa <;> simp [chr, log_outputs]
  by_cases hp : c = chr 'p'
  · subst hp; simp [chr, log_outputs]
  simp [hf, hs, hd, hl, hc, hp, log_outputs]

/-- The loop itself prints nothing through `LOG_OUTPUT`. -/
theorem log_outputs_run_trace (rs : List GetoptResult) : log_outputs (run_trace rs) = [] := by
  induction rs with
  | nil => rfl
  | cons r rs ih =>
    have h1 : run_trace (r :: rs) = effects r ++ run_trace rs := by
      simp [run_trace]
    rw [h1, log_outputs_append, ih, log_outputs_effects]
    rfl

/-- C10, as amended: when help is requested, the usage text that
`parse_cmdline_args` emits is the title line, the license line, and exactly
one line for each of the seven flags help, version, file, search, debug,
log_output and command, in this order; the pipe flag of the table has no
line. -/
theorem usage_has_seven_flag_lines (env : Env) (argv : List String)
    (hhelp : (scan env.POSIXLY_CORRECT argv).any is_help = true) :
    log_outputs (parse_cmdline_args env argv).state.trace = usage_text ∧
    usage_lines =
      [ "Open On-Chip Debugger",
        "Licensed under GNU GPL v2",
        "--help       | -h\tdisplay this help",
        "--version    | -v\tdisplay OpenOCD version",
        "--file       | -f\tuse configuration file <name>",
        "--search     | -s\tdir to search for config files and scripts",
        "--debug      | -d\tset debug level <0-3>",
        "--log_output | -l\tredirect log output to file <name>",
        "--command    | -c\trun <command>" ] ∧
    ∀ o ∈ long_options,
      (usage_lines.filter (line_of_flag o.name)).length = if o.name = "pipe" then 0 else 1 := by
  refine ⟨?_, by decide, by decide⟩
  rw [parse_cmdline_args_help env argv hhelp]
  simp only [log_outputs_append, log_outputs_run_trace, List.nil_append]
  decide

theorem usage_has_seven_flag_lines_witness :
    (scan false ["openocd", "--help"]).any is_help = true ∧
    log_outputs (parse_cmdline_args linux_env ["openocd", "--help"]).state.trace = usage_text :=
  ⟨by decide, (usage_has_seven_flag_lines linux_env ["openocd", "--help"] (by decide)).1⟩

/-- C10, as stated, fails: the usage text has nine lines, and none of them is
a line for the pipe flag of the table. -/
theorem usage_has_no_pipe_line :
    usage_lines.length = 9 ∧
    (usage_lines.filter (line_of_flag "pipe")).length = 0 ∧
    ¬ (∀ o ∈ long_options, (usage_lines.filter (line_of_flag o.name)).length = 1) := by
  decide

/-! ### The queue of config commands -/

theorem config_commands_effects (r : GetoptResult) :
    config_commands (effects r) = (queue_entry r).toList := by
  obtain ⟨c, oa, store⟩ := r
  rw [effects_cases]
  by_cases hf : c = chr 'f'
  · subst hf; cases oa <;> simp [chr, config_commands, queue_entry]
  by_cases hs : c = chr 's'
  · subst hs; cases oa <;> simp [chr, config_commands, queue_entry]
  by_cases hd : c = chr 'd'
  · subst hd; cases oa <;> simp [chr, config_commands, queue_entry]
  by_cases hl : c = chr 'l'
  · subst hl; cases oa <;> simp [chr, config_commands, queue_entry]
  by_cases hc : c = chr 'c'
  · subst hc; cases oa <;> simp [chr, config_commands, queue_entry]
  by_cases hp : c = chr 'p'
  · subst hp; simp [chr, config_commands, queue_entry]
  simp [hf, hs, hd, hl, hc, hp, config_commands, queue_entry]

/-- The loop queues one command for each file flag and each command flag,
in the order the scanner met them: the argument itself for a command flag,
and for a file flag the text `script {<path>}` cut to 127 characters. -/
theorem config_commands_in_order (env : Env) (argv : List String) :
    config_commands (parse_cmdline_args env argv).state.trace =
      (scan env.POSIXLY_CORRECT argv).filterMap queue_entry := by
  rw [config_commands_parse]
  induction scan env.POSIXLY_CORRECT argv with
  | nil => rfl
  | cons r rs ih =>
    have h1 : run_trace (r :: rs) = effects r ++ run_trace rs := by
      simp [run_trace]
    rw [h1, config_commands_append, ih, config_commands_effects r]
    simp only [List.filterMap_cons]
    cases hr : queue_entry r <;> simp [hr]

set_option maxRecDepth 100000 in
/-- C2, at a failing input: the three flags `-c init -f <path> -c exit` queue
three commands in their order, but with a path of 119 characters the entry
of the file flag is `script {<path>` cut after 127 characters, without the
closing brace, and not `script {<path>}`. -/
theorem config_queue_cuts_long_file :
    config_commands
      (parse_cmdline_args linux_env
        ["openocd", "-c", "init", "-f", long_path, "-c", "exit"]).state.trace =
      ["init", "script \x7b" ++ long_path, "exit"] ∧
    config_commands
      (parse_cmdline_args linux_env
        ["openocd", "-c", "init", "-f", long_path, "-c", "exit"]).state.trace ≠
      ["init", "script \x7b" ++ long_path ++ "\x7d", "exit"] := by
  decide

theorem scan_file (posix : Bool) (prog path : String) :
    scan posix [prog, "-f", path] = [⟨chr 'f', some path, none⟩] := by
  cases posix <;>
  · rw [scan_eq, getopt_all_step]
    simp [getopt_start, getopt_long, getopt_element, nonoption_p, short_option, strchr,
      optstring, short_has_arg, chr]
    rw [getopt_all_step]
    simp [getopt_long, getopt_element, c_end]

set_option maxRecDepth 100000 in
/-- C3, at a failing input: for every path the flag `-f <path>` queues exactly
one command, the text `script {<path>}` cut to 127 characters, and runs no
line; with a path of 119 characters the queued text is `script {<path>`
without the closing brace, and not `script {<path>}`. -/
theorem file_flag_cuts_long_path :
    (∀ (env : Env) (prog path : String),
      config_commands (parse_cmdline_args env [prog, "-f", path]).state.trace =
        [snprintf 128 ("script \x7b" ++ path ++ "\x7d")] ∧
      run_lines (parse_cmdline_args env [prog, "-f", path]).state.trace = []) ∧
    config_commands (parse_cmdline_args linux_env ["openocd", "-f", long_path]).state.trace =
      ["script \x7b" ++ long_path] ∧
    config_commands (parse_cmdline_args linux_env ["openocd", "-f", long_path]).state.trace ≠
      ["script \x7b" ++ long_path ++ "\x7d"] := by
  refine ⟨?_, by decide, by decide⟩
  intro env prog path
  constructor
  · rw [config_commands_in_order, scan_file]
    simp [queue_entry, chr]
  · rw [run_lines_parse, scan_file]
    simp [run_trace, effects_cases, chr, run_lines]

/-- No path of 119 characters or more fits the buffer: the text queued for it
is not `script {<path>}`. -/
theorem snprintf_cuts_long_path (path : String) (hlen : 119 ≤ path.length) :
    snprintf 128 ("script \x7b" ++ path ++ "\x7d") ≠ "script \x7b" ++ path ++ "\x7d" := by
  intro heq
  have h1 := congrArg String.length heq
  have h2 : (snprintf 128 ("script \x7b" ++ path ++ "\x7d")).length ≤ 127 := by
    simp only [snprintf, String.length]
    rw [List.length_take]
    omega
  have h3 : ("script \x7b" ++ path ++ "\x7d").length = 8 + path.length + 1 := by
    rw [String.length_append, String.length_append]; rfl
  omega

/-- A path of at most 118 characters is queued whole: `-f <path>` queues
`script {<path>}`. -/
theorem file_flag_short_path (env : Env) (prog path : String) (h : path.length ≤ 118) :
    config_commands (parse_cmdline_args env [prog, "-f", path]).state.trace =
      ["script \x7b" ++ path ++ "\x7d"] := by
  rw [config_commands_in_order, scan_file]
  have h3 : ("script \x7b" ++ path ++ "\x7d").length = 8 + path.length + 1 := by
    rw [String.length_append, String.length_append]; rfl
  have h4 : ("script \x7b" ++ path ++ "\x7d").length < 128 := by omega
  simp [queue_entry, chr, snprintf_short _ _ h4]

/-- C7, at failing inputs: an unknown flag and a flag without its required
argument both make the scanner return its error result, which the loop has
no case for: the flags after it are still handled, `add_default_dirs` runs
and `ERROR_OK` is returned. -/
theorem scanner_error_is_skipped :
    scan false ["openocd", "--bogus", "-f", "a.cfg", "-s", "tcl", "-d3"] =
      [⟨c_error, none, none⟩, ⟨chr 'f', some "a.cfg", none⟩, ⟨chr 's', some "tcl", none⟩,
        ⟨chr 'd', some "3", none⟩] ∧
    parse_cmdline_args linux_env ["openocd", "--bogus", "-f", "a.cfg", "-s", "tcl", "-d3"] =
      ⟨⟨0, 0, [.add_config_command "script \x7ba.cfg\x7d",
          .add_script_search_dir "tcl",
          .command_run_line "debug_level 3",
          .add_script_search_dir "/home/user/.openocd",
          .add_script_search_dir "/usr/local/share/openocd/site",
          .add_script_search_dir "/usr/local/share/openocd/scripts"]⟩,
        .returned ERROR_OK⟩ ∧
    scan false ["openocd", "-x", "-c", "init"] =
      [⟨c_error, none, none⟩, ⟨chr 'c', some "init", none⟩] ∧
    parse_cmdline_args linux_env ["openocd", "-x", "-c", "init"] =
      ⟨⟨0, 0, [.add_config_command "init",
          .add_script_search_dir "/home/user/.openocd",
          .add_script_search_dir "/usr/local/share/openocd/site",
          .add_script_search_dir "/usr/local/share/openocd/scripts"]⟩,
        .returned ERROR_OK⟩ ∧
    scan false ["openocd", "-p", "-f"] = [⟨chr 'p', none, none⟩, ⟨c_error, none, none⟩] ∧
    (parse_cmdline_args linux_env ["openocd", "-p", "-f"]).outcome = .returned ERROR_OK ∧
    script_search_dirs (parse_cmdline_args linux_env ["openocd", "-p", "-f"]).state.trace =
      ["/home/user/.openocd", "/usr/local/share/openocd/site",
        "/usr/local/share/openocd/scripts"] := by
  decide

end OpenOCD
